import Mathlib

/-
Verification of the N2Window windowing layer
(src/openmdao/visualization/n2_viewer/src/N2Window.js).

The JavaScript source is shallowly embedded below.  Pixel quantities are
modelled as `Int` (the arithmetic in the source is exact linear arithmetic
on coordinates).  DOM bounding boxes are modelled by `Rect`; the object
returned by `N2Window._getPos` is modelled by `Pos`; inline styles are an
association list from style names to string values; the process-wide state
(the static `N2Window.zIndex` counter plus all live windows) is modelled by
`ProcState` with a step relation `Step` covering the operations of the
class hierarchy.
-/

/-- A DOM bounding rectangle, as returned by getBoundingClientRect.
Its width is `right - left` and its height is `bottom - top`. -/
structure Rect where
  top : Int
  right : Int
  bottom : Int
  left : Int
deriving DecidableEq

/-- The position record built by `N2Window._getPos` (lines 58-74): offsets of
the window from each edge of the container, the window's own width/height,
and the container's dimensions. -/
structure Pos where
  top : Int
  right : Int
  bottom : Int
  left : Int
  width : Int
  height : Int
  parentWidth : Int
  parentHeight : Int
deriving DecidableEq

/-- Method `N2Window._getPos`: measure the window's box against the container's box.
Mirrors lines 58-74 of the source; a DOM rect's `width` is `right - left`
and its `height` is `bottom - top`. -/
def getPos (parent child : Rect) : Pos :=
  { top := child.top - parent.top
    right := parent.right - child.right
    bottom := parent.bottom - child.bottom
    left := child.left - parent.left
    width := child.right - child.left
    height := child.bottom - child.top
    parentWidth := parent.right - parent.left
    parentHeight := parent.bottom - parent.top }

/-- Effect of a CSS `translate(dx px, dy px)` transform on a rendered
bounding box: every corner shifts by the same vector. -/
def rectShift (t : Int × Int) (r : Rect) : Rect :=
  { top := r.top + t.2, right := r.right + t.1, bottom := r.bottom + t.2, left := r.left + t.1 }

/-- The four window edges adjusted by resize handles. -/
inductive Dir
  | top
  | right
  | bottom
  | left
deriving DecidableEq

/-- The two window dimensions guarded by the minimum-size constraint. -/
inductive Dim
  | width
  | height
deriving DecidableEq

/-- One entry of the `dirVals` table of `_setupResizers` (lines 399-404):
`mult` is the sign applied to the pointer delta, `idx` selects the x (0) or
y (1) component of the delta, and `min` names the dimension whose minimum
the edge must respect. -/
structure DirVal where
  mult : Int
  idx : Nat
  min : Dim

/-- The `dirVals` table from `_setupResizers` (lines 399-404). -/
def dirVals : Dir → DirVal
  | .top => { mult := 1, idx := 1, min := .height }
  | .right => { mult := -1, idx := 0, min := .width }
  | .bottom => { mult := -1, idx := 1, min := .height }
  | .left => { mult := 1, idx := 0, min := .width }

/-- The minimum window size stored in `N2WindowResizable.min` (line 362). -/
structure MinSize where
  width : Int
  height : Int
deriving DecidableEq

/-- Field access `pos[dir]` for an edge name. -/
def Pos.edge (p : Pos) : Dir → Int
  | .top => p.top
  | .right => p.right
  | .bottom => p.bottom
  | .left => p.left

/-- Field update `pos[dir] = v` for an edge name. -/
def Pos.setEdge (p : Pos) : Dir → Int → Pos
  | .top, v => { p with top := v }
  | .right, v => { p with right := v }
  | .bottom, v => { p with bottom := v }
  | .left, v => { p with left := v }

/-- Field access `pos[dim]` for a dimension name. -/
def Pos.dim (p : Pos) : Dim → Int
  | .width => p.width
  | .height => p.height

/-- Field access `min[dim]` on the stored minimum size. -/
def MinSize.dim (m : MinSize) : Dim → Int
  | .width => m.width
  | .height => m.height

/-- Index access `newPos[idx]`: component selection on the pointer-delta pair
`newPos = [pageX - startX, pageY - startY]`. -/
def coord (np : Int × Int) (i : Nat) : Int := if i = 0 then np.1 else np.2

/-- Call `Object.assign(newSize, startSize)` (line 426): every field of the
target is overwritten with the corresponding field of the source (both
objects carry exactly the eight `_getPos` keys). -/
def objAssign (target src : Pos) : Pos :=
  { target with
    top := src.top
    right := src.right
    bottom := src.bottom
    left := src.left
    width := src.width
    height := src.height
    parentWidth := src.parentWidth
    parentHeight := src.parentHeight }

/-- The body of the `for (let i in dirs)` loop of the resize mousemove
handler (lines 428-442): compute the clamp limit `dimLimit`, the candidate
offset `newVal`, and store the capped value into `newSize[dir]`. -/
def resizeStep (m : MinSize) (startSize : Pos) (newPos : Int × Int) (newSize : Pos) (d : Dir) : Pos :=
  let dv := dirVals d
  let dimLimit := startSize.edge d + startSize.dim dv.min - m.dim dv.min
  let newVal := startSize.edge d + coord newPos dv.idx * dv.mult
  newSize.setEdge d (if newVal > dimLimit then dimLimit else newVal)

/-- One full resize mousemove (lines 424-446): reset `newSize` from the
captured baseline, update each controlled edge with clamping, then
re-derive width and height from the container dimensions and the new
offsets.  The returned record is what gets written by `self._setPos`. -/
def resizeMove (m : MinSize) (startSize : Pos) (dirs : List Dir) (newPos : Int × Int)
    (prevNewSize : Pos) : Pos :=
  let ns := dirs.foldl (resizeStep m startSize newPos) (objAssign prevNewSize startSize)
  { ns with width := startSize.parentWidth - (ns.right + ns.left),
            height := startSize.parentHeight - (ns.top + ns.bottom) }

/-- The eight resize handles of `_setupResizers` (lines 380-389). -/
inductive Handle
  | top
  | topRight
  | right
  | bottomRight
  | bottom
  | bottomLeft
  | left
  | topLeft
deriving DecidableEq

/-- Split `name.split('-')` (line 413): the edges controlled by each handle, in
the order they appear in the handle's class name. -/
def Handle.dirs : Handle → List Dir
  | .top => [.top]
  | .topRight => [.top, .right]
  | .right => [.right]
  | .bottomRight => [.bottom, .right]
  | .bottom => [.bottom]
  | .bottomLeft => [.bottom, .left]
  | .left => [.left]
  | .topLeft => [.top, .left]

/-- Whether a handle adjusts the left or right edge (so the clamp of those
edges governs the width). -/
def Handle.controlsWidth : Handle → Bool
  | .right | .left | .topRight | .bottomRight | .bottomLeft | .topLeft => true
  | .top | .bottom => false

/-- Whether a handle adjusts the top or bottom edge (so the clamp of those
edges governs the height). -/
def Handle.controlsHeight : Handle → Bool
  | .top | .bottom | .topRight | .bottomRight | .bottomLeft | .topLeft => true
  | .right | .left => false

/-- A whole resize interaction: the sequence of geometries applied by the
successive mousemove events, threading the mutable `newSize` object (which
lives in the mousedown closure) from one move to the next. -/
def resizeMoves (m : MinSize) (startSize : Pos) (dirs : List Dir) :
    List (Int × Int) → Pos → List Pos
  | [], _ => []
  | d :: ds, ns =>
    let ns' := resizeMove m startSize dirs d ns
    ns' :: resizeMoves m startSize dirs ds ns'

/-- Since `Object.assign(newSize, startSize)` replaces every field, the
previous contents of `newSize` are irrelevant. -/
theorem objAssign_eq (t s : Pos) : objAssign t s = s := rfl

/-- Each resize mousemove recomputes the applied geometry from the captured
baseline alone; the threaded `newSize` state does not matter. -/
theorem resizeMove_state_irrelevant (m : MinSize) (startSize : Pos) (dirs : List Dir)
    (np : Int × Int) (ns ns' : Pos) :
    resizeMove m startSize dirs np ns = resizeMove m startSize dirs np ns' := rfl

/-- C2: every six-field geometry write satisfies
`width = containerWidth - left - right` and
`height = containerHeight - top - bottom`: this holds for the record
measured by `_getPos` (hence for the drag commit, which writes
`_setPos(_getPos())`) and for the `newSize` record written on every resize
mousemove (whose width/height are re-derived from exactly this formula). -/
theorem setPos_geometry_invariant :
    (∀ p c : Rect,
      (getPos p c).width = (getPos p c).parentWidth - (getPos p c).left - (getPos p c).right ∧
      (getPos p c).height = (getPos p c).parentHeight - (getPos p c).top - (getPos p c).bottom) ∧
    (∀ (m : MinSize) (start : Pos) (dirs : List Dir) (np : Int × Int) (ns : Pos),
      (resizeMove m start dirs np ns).width =
        start.parentWidth - (resizeMove m start dirs np ns).left -
          (resizeMove m start dirs np ns).right ∧
      (resizeMove m start dirs np ns).height =
        start.parentHeight - (resizeMove m start dirs np ns).top -
          (resizeMove m start dirs np ns).bottom) := by
  constructor
  · intro p c
    constructor <;> simp [getPos]
  · intro m start dirs np ns
    constructor <;> simp [resizeMove] <;> ring

/-- C7: the geometry applied on each resize mousemove is a function only of
the baseline captured at mousedown, the configured minimums and the current
pointer delta: the sequence of applied geometries is the pointwise image of
the delta sequence under the pure per-move function, and in particular the
final applied geometry corresponds to the last pointer-move regardless of
the intermediate pointer path. -/
theorem resize_recomputes_from_baseline :
    (∀ (m : MinSize) (start : Pos) (dirs : List Dir) (deltas : List (Int × Int)) (ns0 : Pos),
      resizeMoves m start dirs deltas ns0 =
        deltas.map (fun d => resizeMove m start dirs d start)) ∧
    (∀ (m : MinSize) (start : Pos) (dirs : List Dir) (deltas : List (Int × Int)) (ns0 : Pos),
      (resizeMoves m start dirs deltas ns0).getLast? =
        (deltas.getLast?).map (fun d => resizeMove m start dirs d start)) := by
  have hmap : ∀ (m : MinSize) (start : Pos) (dirs : List Dir) (deltas : List (Int × Int))
      (ns0 : Pos), resizeMoves m start dirs deltas ns0 =
        deltas.map (fun d => resizeMove m start dirs d start) := by
    intro m start dirs deltas
    induction deltas with
    | nil => intro ns0; rfl
    | cons d ds ih =>
      intro ns0
      show resizeMove m start dirs d ns0 ::
        resizeMoves m start dirs ds (resizeMove m start dirs d ns0) = _
      rw [resizeMove_state_irrelevant m start dirs d ns0 start, ih]
      rfl
  refine ⟨hmap, ?_⟩
  intro m start dirs deltas ns0
  rw [hmap, List.getLast?_map]

/-- C1 (amended): for a baseline captured by `_getPos` (hence satisfying the
four-sided consistency equations), every dimension controlled by the
engaged handle is clamped to its configured minimum on every mousemove,
for any pointer delta; a dimension not controlled by the handle is written
back unchanged from the baseline (so it honors the minimum exactly when the
baseline already did). -/
theorem resize_min_size_clamp (m : MinSize) (start : Pos) (h : Handle) (np : Int × Int)
    (ns : Pos)
    (hcw : start.width = start.parentWidth - start.left - start.right)
    (hch : start.height = start.parentHeight - start.top - start.bottom) :
    (h.controlsWidth = true → m.width ≤ (resizeMove m start h.dirs np ns).width) ∧
    (h.controlsWidth = false → (resizeMove m start h.dirs np ns).width = start.width) ∧
    (h.controlsHeight = true → m.height ≤ (resizeMove m start h.dirs np ns).height) ∧
    (h.controlsHeight = false → (resizeMove m start h.dirs np ns).height = start.height) := by
  cases h <;>
    simp only [Handle.dirs, Handle.controlsWidth, Handle.controlsHeight, resizeMove, resizeStep,
      dirVals, Pos.edge, Pos.setEdge, Pos.dim, MinSize.dim, coord, objAssign, List.foldl] <;>
    norm_num <;> split_ifs <;> omega

/-- Minimum size used in the C1 analysis: the `N2WindowResizable`
constructor defaults, `minWidth = 200`, `minHeight = 200`. -/
def minEx : MinSize := { width := 200, height := 200 }

/-- Container box for the C1 counterexample. -/
def parentRectEx : Rect := { top := 0, right := 1000, bottom := 1000, left := 0 }

/-- Window box for the C1 counterexample: 100 wide (below the 200 minimum,
e.g. after `setList({width:'100px'})`), 300 tall. -/
def childRectEx : Rect := { top := 100, right := 110, bottom := 400, left := 10 }

/-- C1 counterexample: grabbing the top handle of a 100-wide window
(minWidth 200) and moving the pointer down by 10 applies a geometry whose
width is 100, i.e. below minWidth — the claim `width >= minWidth` for every
resize move is false because a handle only clamps the dimensions it
controls. -/
theorem resize_min_size_claim_false :
    ¬ (minEx.width ≤
        (resizeMove minEx (getPos parentRectEx childRectEx) Handle.top.dirs (0, 10)
          (getPos parentRectEx childRectEx)).width) := by decide

/-- Consistent 300x300 baseline geometry for the C1 witness. -/
def startEx : Pos :=
  { top := 100, right := 500, bottom := 600, left := 200,
    width := 300, height := 300, parentWidth := 1000, parentHeight := 1000 }

/-- C1 witness: dragging the right handle 500px to the left from a
300px-wide window with minWidth 200 — the clamp keeps width at or above
200 (here exactly 200) and leaves the height at its baseline value. -/
theorem resize_min_size_clamp_witness :
    (startEx.width = startEx.parentWidth - startEx.left - startEx.right) ∧
    (startEx.height = startEx.parentHeight - startEx.top - startEx.bottom) ∧
    ((Handle.right.controlsWidth = true →
        minEx.width ≤ (resizeMove minEx startEx Handle.right.dirs (-500, 0) startEx).width) ∧
     (Handle.right.controlsWidth = false →
        (resizeMove minEx startEx Handle.right.dirs (-500, 0) startEx).width = startEx.width) ∧
     (Handle.right.controlsHeight = true →
        minEx.height ≤ (resizeMove minEx startEx Handle.right.dirs (-500, 0) startEx).height) ∧
     (Handle.right.controlsHeight = false →
        (resizeMove minEx startEx Handle.right.dirs (-500, 0) startEx).height = startEx.height)) :=
  ⟨by decide, by decide,
    resize_min_size_clamp minEx startEx Handle.right (-500, 0) startEx (by decide) (by decide)⟩

/-- Setter `d3.style(name, value)` on an element: set (or overwrite) one inline
style in the element's style list. -/
def setStyle (k v : String) (st : List (String × String)) : List (String × String) :=
  match st with
  | [] => [(k, v)]
  | (q, w) :: rest => if q = k then (k, v) :: rest else (q, w) :: setStyle k v rest

/-- Setter `d3.style(name, null)`: remove an inline style. -/
def removeStyle (k : String) (st : List (String × String)) : List (String × String) :=
  st.filter (fun p => p.1 ≠ k)

/-- Read an inline style (none when unset). -/
def getStyle (k : String) (st : List (String × String)) : Option String :=
  (st.find? (fun p => p.1 = k)).map Prod.snd

theorem getStyle_setStyle (k q v : String) (st : List (String × String)) :
    getStyle k (setStyle q v st) = if q = k then some v else getStyle k st := by
  induction st with
  | nil => by_cases h : q = k <;> simp [setStyle, getStyle, h]
  | cons p rest ih =>
    by_cases h : p.1 = q
    · by_cases h2 : q = k <;> simp_all [setStyle, getStyle]
    · by_cases h2 : q = k <;> by_cases h3 : p.1 = k <;> simp_all [setStyle, getStyle]

theorem getStyle_removeStyle (k q : String) (st : List (String × String)) :
    getStyle k (removeStyle q st) = if q = k then none else getStyle k st := by
  induction st with
  | nil => by_cases h : q = k <;> simp [removeStyle, getStyle, h]
  | cons p rest ih =>
    by_cases h : p.1 = q
    · by_cases h2 : q = k <;> simp_all [removeStyle, getStyle]
    · by_cases h2 : q = k <;> by_cases h3 : p.1 = k <;> simp_all [removeStyle, getStyle]

/-- The modelled per-window state of an `N2Window` object: the assigned
z-index, the visibility class, the `active` property read by `move()` (a
JavaScript property that no code ever assigns, hence `Option`, and
`undefined`/`none` at construction), the title HTML, the class list of the
`div.window-contents` element, and the inline styles of the root element
and of the header. -/
structure Win where
  z : Int
  hidden : Bool
  active : Option Bool
  title : String
  classes : List String
  styles : List (String × String)
  headerStyles : List (String × String)
deriving DecidableEq

/-- Return value of the fluent getter/setter methods: either `this` (the
window, for chaining) or a string (the current value). -/
inductive Ret
  | self
  | str (s : String)
deriving DecidableEq

/-- Method `N2Window.title` (lines 133-140): `if (newTitle)` — a JavaScript
truthiness test, so both `null` and the empty string take the getter
branch; otherwise set the title HTML and return `this`. -/
def titleCall (newTitle : Option String) (w : Win) : Win × Ret :=
  match newTitle with
  | some t => if t != "" then ({ w with title := t }, Ret.self) else (w, Ret.str w.title)
  | none => (w, Ret.str w.title)

/-- A class token matched by the capture group of the regex
`^.*(window-theme-\S+).*$` (line 151): it starts with the literal
`window-theme-` and extends to the end of the token. -/
def isThemeToken (s : String) : Bool :=
  List.isPrefixOf ("window-theme-".toList) s.toList

/-- Call `classes.replace` with `window-theme` capture (line 151): the
greedy leading `.*` makes the capture the last theme token of the class
attribute; when nothing matches, `replace` returns the whole attribute
string unchanged. -/
def curThemeOf (classes : List String) : String :=
  match (classes.filter isThemeToken).getLast? with
  | some c => c
  | none => String.intercalate " " classes

/-- Call `d3.classed(name, true)`: add a class token if not already present. -/
def addToken (n : String) (cs : List String) : List String :=
  if n ∈ cs then cs else cs ++ [n]

/-- Call `d3.classed(name, false)`: remove a class token. -/
def removeToken (n : String) (cs : List String) : List String :=
  cs.filter (fun c => c ≠ n)

/-- Method `N2Window.theme` (lines 148-163): compute `curTheme` from the class
attribute, then (when `newTheme` is truthy) run
`classed('window-theme-' + curTheme, false).classed('window-theme-' + newTheme, true)`
and return `this`; otherwise return `curTheme`. -/
def themeCall (newTheme : Option String) (w : Win) : Win × Ret :=
  let cur := curThemeOf w.classes
  match newTheme with
  | some t =>
    if t != "" then
      let removed := removeToken ("window-theme-" ++ cur) w.classes
      ({ w with classes := addToken ("window-theme-" ++ t) removed }, Ret.self)
    else (w, Ret.str cur)
  | none => (w, Ret.str cur)

/-- Method `N2Window.set` (lines 172-185): the names `title` and `theme` route to
the corresponding setters, everything else is set as an inline style. -/
def Win.applySet (opt val : String) (w : Win) : Win :=
  if opt = "title" then (titleCall (some val) w).1
  else if opt = "theme" then (themeCall (some val) w).1
  else { w with styles := setStyle opt val w.styles }

/-- The template literal `` `${v}px` `` used by `_setPos`. -/
def pxStr (v : Int) : String := toString v ++ "px"

/-- The six styles written by `N2Window._setPos` (lines 81-88), in source
order. -/
def setPosKeys (p : Pos) : List (String × String) :=
  [("top", pxStr p.top), ("right", pxStr p.right), ("bottom", pxStr p.bottom),
   ("left", pxStr p.left), ("width", pxStr p.width), ("height", pxStr p.height)]

/-- Method `N2Window._setPos`: write all six geometry fields through `set`. -/
def Win.setPos (p : Pos) (w : Win) : Win :=
  (setPosKeys p).foldl (fun w kv => w.applySet kv.1 kv.2) w

/-- Concrete window for the C4 analysis, with the single theme class
`window-theme-primary` on its contents element. -/
def winC4 : Win :=
  { z := 11, hidden := false, active := none, title := "t",
    classes := ["window-contents", "window-theme-primary"], styles := [], headerStyles := [] }

/-- C4 (code bug): calling `theme('accent')` on a window whose contents
carry exactly the theme class `window-theme-primary` leaves the old theme
class in place next to the new one — the removal targets the class
`window-theme-window-theme-primary` (the captured `curTheme` already
carries the `window-theme-` prefix, and the setter prefixes it again), so
afterwards two theme classes are present instead of exactly one. -/
theorem theme_leaves_old_class :
    (themeCall (some "accent") winC4).1.classes =
      ["window-contents", "window-theme-primary", "window-theme-accent"] ∧
    (themeCall (some "accent") winC4).1.classes.filter isThemeToken =
      ["window-theme-primary", "window-theme-accent"] := by decide

/-- Concrete window for the C8 analysis. -/
def winC8 : Win :=
  { z := 11, hidden := false, active := none, title := "A",
    classes := ["window-contents", "window-theme-primary"], styles := [], headerStyles := [] }

/-- C8 counterexample: `title('')` with the empty string — a string value —
does not set the title and does not return the window: the JavaScript
truthiness guard `if (newTitle)` sends the empty string to the getter
branch, which returns the current title string. -/
theorem title_empty_string_not_fluent :
    (titleCall (some "") winC8).2 = Ret.str "A" ∧
    (titleCall (some "") winC8).2 ≠ Ret.self ∧
    (titleCall (some "") winC8).1.title = "A" := by decide

/-- C8 (amended): for every non-empty (JavaScript-truthy) string the call
`title(newTitle)` sets the window's title to `newTitle` and returns the
window for chaining, and `title()` with no argument returns the current
title string; the empty string falls into the no-argument branch. -/
theorem title_getter_setter (w : Win) (t : String) (ht : t ≠ "") :
    titleCall (some t) w = ({ w with title := t }, Ret.self) ∧
    titleCall none w = (w, Ret.str w.title) ∧
    titleCall (some "") w = (w, Ret.str w.title) := by
  refine ⟨?_, rfl, rfl⟩
  simp [titleCall, bne_iff_ne, ht]

/-- C8 witness: applying the amended getter/setter law at the concrete
window `winC8` and the non-empty title string `"B"`. -/
theorem title_getter_setter_witness :
    ("B" ≠ "") ∧
    (titleCall (some "B") winC8 = ({ winC8 with title := "B" }, Ret.self) ∧
     titleCall none winC8 = (winC8, Ret.str winC8.title) ∧
     titleCall (some "") winC8 = (winC8, Ret.str winC8.title)) :=
  ⟨by decide, title_getter_setter winC8 "B" (by decide)⟩

/-- The string `` `translate(${x}px, ${y}px)` `` built by the drag
mousemove handler (line 334). -/
def translateStr (dx dy : Int) : String :=
  "translate(" ++ toString dx ++ "px, " ++ toString dy ++ "px)"

/-- The drag mousemove handler (lines 332-335): compute
`newTrans = [pageX - startX, pageY - startY]` and write only the
`transform` inline style of the window element. -/
def Win.dragTransform (dragStart cur : Int × Int) (w : Win) : Win :=
  let newTrans := (cur.1 - dragStart.1, cur.2 - dragStart.2)
  { w with styles := setStyle "transform" (translateStr newTrans.1 newTrans.2) w.styles }

/-- The drag mouseup handler (lines 336-347): commit the rendered geometry
with `_setPos(_getPos())`, reset the cursor, clear the `transform` style
(`style('transform', null)`), and reset the header cursor.  `measured` is
the `_getPos` result for the on-screen (translated) position. -/
def Win.dragRelease (measured : Pos) (w : Win) : Win :=
  let w1 := Win.setPos measured w
  { w1 with
    styles := removeStyle "transform" (setStyle "cursor" "auto" w1.styles),
    headerStyles := setStyle "cursor" "grab" w1.headerStyles }

/-- State of one drag interaction: the window plus the two listeners the
mousedown handler bound on the whole surface (`d3.select(window)`), which
the mouseup handler detaches. -/
structure DragSession where
  win : Win
  movesBound : Bool
  upBound : Bool
deriving DecidableEq

/-- A mousemove during a drag only rewrites the transform style. -/
def dragSessionMove (dragStart cur : Int × Int) (st : DragSession) : DragSession :=
  { st with win := st.win.dragTransform dragStart cur }

/-- The mouseup ending a drag: commit geometry, clear transform, detach the
surface-level listeners (`w.on("mousemove", null).on("mouseup", null)`). -/
def dragSessionUp (measured : Pos) (st : DragSession) : DragSession :=
  { win := st.win.dragRelease measured, movesBound := false, upBound := false }

/-- Equality of the six stored geometry styles between two style lists. -/
def geomStylesEq (a b : List (String × String)) : Prop :=
  getStyle "top" a = getStyle "top" b ∧ getStyle "right" a = getStyle "right" b ∧
  getStyle "bottom" a = getStyle "bottom" b ∧ getStyle "left" a = getStyle "left" b ∧
  getStyle "width" a = getStyle "width" b ∧ getStyle "height" a = getStyle "height" b

/-- C5: during a drag, every mousemove writes only the presentational
transform (whose value is the pointer delta `current - start`), leaving the
six stored geometry styles and the listeners untouched; only the mouseup
re-measures the rendered geometry and commits it through `_setPos`, clears
the transform and detaches the move/up listeners; and the re-measured
rendered geometry is exactly the baseline geometry shifted by the
transform (same width and height). -/
theorem drag_transform_only :
    (∀ (dragStart cur : Int × Int) (st : DragSession),
      geomStylesEq (dragSessionMove dragStart cur st).win.styles st.win.styles ∧
      getStyle "transform" (dragSessionMove dragStart cur st).win.styles =
        some (translateStr (cur.1 - dragStart.1) (cur.2 - dragStart.2)) ∧
      (dragSessionMove dragStart cur st).win.z = st.win.z ∧
      (dragSessionMove dragStart cur st).win.hidden = st.win.hidden ∧
      (dragSessionMove dragStart cur st).win.title = st.win.title ∧
      (dragSessionMove dragStart cur st).win.classes = st.win.classes ∧
      (dragSessionMove dragStart cur st).movesBound = st.movesBound ∧
      (dragSessionMove dragStart cur st).upBound = st.upBound) ∧
    (∀ (measured : Pos) (st : DragSession),
      getStyle "top" (dragSessionUp measured st).win.styles = some (pxStr measured.top) ∧
      getStyle "right" (dragSessionUp measured st).win.styles = some (pxStr measured.right) ∧
      getStyle "bottom" (dragSessionUp measured st).win.styles = some (pxStr measured.bottom) ∧
      getStyle "left" (dragSessionUp measured st).win.styles = some (pxStr measured.left) ∧
      getStyle "width" (dragSessionUp measured st).win.styles = some (pxStr measured.width) ∧
      getStyle "height" (dragSessionUp measured st).win.styles = some (pxStr measured.height) ∧
      getStyle "transform" (dragSessionUp measured st).win.styles = none ∧
      (dragSessionUp measured st).movesBound = false ∧
      (dragSessionUp measured st).upBound = false) ∧
    (∀ (p c : Rect) (t : Int × Int),
      (getPos p (rectShift t c)).top = (getPos p c).top + t.2 ∧
      (getPos p (rectShift t c)).right = (getPos p c).right - t.1 ∧
      (getPos p (rectShift t c)).bottom = (getPos p c).bottom - t.2 ∧
      (getPos p (rectShift t c)).left = (getPos p c).left + t.1 ∧
      (getPos p (rectShift t c)).width = (getPos p c).width ∧
      (getPos p (rectShift t c)).height = (getPos p c).height) := by
  refine ⟨?_, ?_, ?_⟩
  · intro dragStart cur st
    simp [geomStylesEq, dragSessionMove, Win.dragTransform, getStyle_setStyle]
  · intro measured st
    simp [dragSessionUp, Win.dragRelease, Win.setPos, setPosKeys, List.foldl, Win.applySet,
      getStyle_setStyle, getStyle_removeStyle]
  · intro p c t
    refine ⟨?_, ?_, ?_, ?_, ?_, ?_⟩ <;> simp [getPos, rectShift] <;> ring

/-- The event listeners a window wires at construction time: the close
button's click handler (line 41), the draggable header's mousedown handler
(line 321), and one mousedown handler per resize handle (line 414). -/
inductive LKey
  | closeClick
  | headerMousedown
  | resizer (h : Handle)
deriving DecidableEq

/-- The eight resizer elements, in the iteration order of
`resizerClassNames` (lines 380-389). -/
def allHandles : List Handle :=
  [.top, .topRight, .right, .bottomRight, .bottom, .bottomLeft, .left, .topLeft]

/-- A window's listener wiring plus whether its root element is still in
the document. -/
structure WinDoc where
  listeners : List LKey
  attachedToDoc : Bool
deriving DecidableEq

/-- Listener wiring after the `N2Window` constructor. -/
def mkBaseWin : WinDoc := { listeners := [.closeClick], attachedToDoc := true }

/-- Listener wiring after the `N2WindowDraggable` constructor
(base constructor plus `_setupDrag`). -/
def mkDraggableWin : WinDoc :=
  { listeners := mkBaseWin.listeners ++ [.headerMousedown], attachedToDoc := true }

/-- Listener wiring after the `N2WindowResizable` constructor (draggable
constructor plus `_setupResizers`, which wires a mousedown handler on each
of the eight resizer divs). -/
def mkResizableWin : WinDoc :=
  { listeners := mkDraggableWin.listeners ++ allHandles.map LKey.resizer,
    attachedToDoc := true }

/-- Method `N2Window.close` (lines 201-204): `closeButton.on('click', null)` (drop
the click handler), then `window.remove()` (detach the root element). -/
def closeBase (w : WinDoc) : WinDoc :=
  { listeners := w.listeners.filter (fun k => k ≠ LKey.closeClick), attachedToDoc := false }

/-- Method `N2WindowDraggable.close` (lines 307-310): `header.on('mousedown', null)`
then `super.close()`.  `N2WindowResizable` defines no `close` override, so
resizable windows also close through this method. -/
def closeDraggable (w : WinDoc) : WinDoc :=
  closeBase { w with listeners := w.listeners.filter (fun k => k ≠ LKey.headerMousedown) }

/-- C9 counterexample: closing a freshly constructed resizable window does
not unregister all of the window's own listeners — the eight resizer
mousedown handlers survive `close()` (no class in the hierarchy detaches
them), so the listener set after close is not empty. -/
theorem close_resizable_leaves_listeners :
    (closeDraggable mkResizableWin).listeners = allHandles.map LKey.resizer ∧
    (closeDraggable mkResizableWin).listeners ≠ [] := by decide

/-- C9 (amended): `close()` drops the close button's click handler (and, in
the draggable variant, the header's mousedown handler) and removes the root
element, so plain and draggable windows end with no registered listeners;
for the resizable variant the close-button and header handlers are likewise
dropped, but the eight resizer mousedown handlers remain registered on the
(removed) subtree. -/
theorem close_unregisters_listeners :
    closeBase mkBaseWin = { listeners := [], attachedToDoc := false } ∧
    closeDraggable mkDraggableWin = { listeners := [], attachedToDoc := false } ∧
    (closeDraggable mkResizableWin).attachedToDoc = false ∧
    (closeDraggable mkResizableWin).listeners = allHandles.map LKey.resizer ∧
    LKey.closeClick ∉ (closeDraggable mkResizableWin).listeners ∧
    LKey.headerMousedown ∉ (closeDraggable mkResizableWin).listeners := by decide

/-- JavaScript truthiness of the `this.active` property read by `move()`
(line 241): `undefined` (modelled `none`) is falsy. -/
def truthy : Option Bool → Bool
  | none => false
  | some b => b

/-- The event fields read by `N2Window.move` (lines 240-269), together with
the `window.innerWidth`/`innerHeight` globals it compares against. -/
structure MoveEvent where
  clientX : Int
  clientY : Int
  pageX : Int
  pageY : Int
  innerWidth : Int
  innerHeight : Int
deriving DecidableEq

/-- The position mutations of `move()` (lines 245-265), starting from the
measured `_getPos` record.  The comparisons `clientX < innerWidth / 2` use
exact halving, written `2 * clientX < innerWidth`. -/
def movedPos (ev : MoveEvent) (offset : Int) (pos : Pos) : Pos :=
  let pos1 :=
    if 2 * ev.clientX < ev.innerWidth then
      { pos with left := ev.pageX + offset, right := ev.pageX + offset + pos.width }
    else
      { pos with right := ev.pageX - offset, left := ev.pageX - offset - pos.width }
  if 2 * ev.clientY < ev.innerHeight then
    { pos1 with top := ev.pageY + offset, bottom := ev.pageY + offset + pos1.height }
  else
    { pos1 with bottom := ev.pageY - offset, top := ev.pageY - offset - pos1.height }

/-- The process-wide state: the static counter `N2Window.zIndex`, the live
windows, and (as auxiliary history) the list of z-index values assigned so
far, in assignment order. -/
structure ProcState where
  zCounter : Int
  wins : List Win
  log : List Int
deriving DecidableEq

/-- Process start: `static zIndex = 10` (line 13) and no windows. -/
def initState : ProcState := { zCounter := 10, wins := [], log := [] }

/-- Apply a per-window mutation to window `i`. -/
def updateWin (i : Nat) (f : Win → Win) (s : ProcState) : ProcState :=
  match s.wins[i]? with
  | none => s
  | some w => { s with wins := s.wins.set i (f w) }

/-- The assignment branch of `bringToFront` (lines 109-110):
`N2Window.zIndex++; this.window.style('z-index', N2Window.zIndex)`. -/
def assignFront (i : Nat) (s : ProcState) : ProcState :=
  match s.wins[i]? with
  | none => s
  | some w =>
    { zCounter := s.zCounter + 1, wins := s.wins.set i { w with z := s.zCounter + 1 },
      log := s.log ++ [s.zCounter + 1] }

/-- Method `N2Window.bringToFront(force)` (lines 107-114): assign a fresh topmost
z-index when forced or when the window's current z-index is below the
counter. -/
def bringToFrontOp (i : Nat) (force : Bool) (s : ProcState) : ProcState :=
  match s.wins[i]? with
  | none => s
  | some w => if force = true ∨ w.z < s.zCounter then assignFront i s else s

/-- A freshly cloned template window: hidden, no inline styles, and no
`active` property (the constructor never creates one). -/
def freshWin (tplTitle : String) (tplClasses : List String) : Win :=
  { z := 0, hidden := true, active := none, title := tplTitle, classes := tplClasses,
    styles := [], headerStyles := [] }

/-- The `N2Window` constructor (lines 23-44): clone the template, then
`this.bringToFront(true)`. -/
def createWinOp (tplTitle : String) (tplClasses : List String) (s : ProcState) : ProcState :=
  bringToFrontOp s.wins.length true { s with wins := s.wins ++ [freshWin tplTitle tplClasses] }

/-- The `hidden` setter (lines 97-100): `if (!hide) this.bringToFront();`
then `classed('window-inactive', hide)`. -/
def setHiddenOp (i : Nat) (hide : Bool) (s : ProcState) : ProcState :=
  let s1 := if hide = false then bringToFrontOp i false s else s
  updateWin i (fun w => { w with hidden := hide }) s1

/-- Method `N2Window.show` (lines 117-120): `this.hidden = false`. -/
def showOp (i : Nat) (s : ProcState) : ProcState := setHiddenOp i false s

/-- Method `N2Window.hide` (lines 123-126): `this.hidden = true`. -/
def hideOp (i : Nat) (s : ProcState) : ProcState := setHiddenOp i true s

/-- Method `N2Window.set` lifted to the process state. -/
def setOp (i : Nat) (opt val : String) (s : ProcState) : ProcState :=
  updateWin i (Win.applySet opt val) s

/-- Method `N2Window.setList` (lines 192-198): apply `set` to every entry. -/
def setListOp (i : Nat) (opts : List (String × String)) (s : ProcState) : ProcState :=
  opts.foldl (fun s kv => setOp i kv.1 kv.2 s) s

/-- A `_setPos` call on window `i` (geometry commit). -/
def setPosOp (i : Nat) (p : Pos) (s : ProcState) : ProcState :=
  updateWin i (Win.setPos p) s

/-- Method `N2Window.move(event, offset)` (lines 240-269): guarded by
`if (!this.active) return;`; when the guard passes it mutates the measured
position around the mouse and commits it with `_setPos`. -/
def moveOp (i : Nat) (ev : MoveEvent) (offset : Int) (measured : Pos) (s : ProcState) :
    ProcState :=
  match s.wins[i]? with
  | none => s
  | some w =>
    if truthy w.active then updateWin i (Win.setPos (movedPos ev offset measured)) s
    else s

/-- The cursor changes of the drag mousedown handler (lines 324-326),
after `self.bringToFront()`. -/
def Win.dragGrab (w : Win) : Win :=
  { w with styles := setStyle "cursor" "grabbing" w.styles,
           headerStyles := setStyle "cursor" "grabbing" w.headerStyles }

/-- Drag mousedown on window `i` (lines 321-330). -/
def dragDownOp (i : Nat) (s : ProcState) : ProcState :=
  updateWin i Win.dragGrab (bringToFrontOp i false s)

/-- Drag mousemove on window `i` (lines 332-335). -/
def dragMoveOp (i : Nat) (dragStart cur : Int × Int) (s : ProcState) : ProcState :=
  updateWin i (Win.dragTransform dragStart cur) s

/-- Drag mouseup on window `i` (lines 336-347). -/
def dragUpOp (i : Nat) (measured : Pos) (s : ProcState) : ProcState :=
  updateWin i (Win.dragRelease measured) s

/-- Resize mousedown on window `i` (lines 414-421): `self.bringToFront()`. -/
def resizeDownOp (i : Nat) (s : ProcState) : ProcState := bringToFrontOp i false s

/-- Resize mousemove on window `i` (lines 424-447): apply the recomputed
clamped geometry with `self._setPos(newSize)`. -/
def resizeMoveOp (i : Nat) (m : MinSize) (startSize : Pos) (dirs : List Dir)
    (np : Int × Int) (ns : Pos) (s : ProcState) : ProcState :=
  updateWin i (Win.setPos (resizeMove m startSize dirs np ns)) s

/-- Method `close()` on window `i`: the root element leaves the surface. -/
def closeOp (i : Nat) (s : ProcState) : ProcState :=
  { s with wins := s.wins.eraseIdx i }

/-- One step of the process: any operation of the `N2Window` class
hierarchy, on any window and with any arguments. -/
inductive Step : ProcState → ProcState → Prop
  | create (s : ProcState) (t : String) (cs : List String) : Step s (createWinOp t cs s)
  | front (s : ProcState) (i : Nat) (force : Bool) : Step s (bringToFrontOp i force s)
  | setHidden (s : ProcState) (i : Nat) (hide : Bool) : Step s (setHiddenOp i hide s)
  | set (s : ProcState) (i : Nat) (opt val : String) : Step s (setOp i opt val s)
  | setList (s : ProcState) (i : Nat) (opts : List (String × String)) :
      Step s (setListOp i opts s)
  | setPos (s : ProcState) (i : Nat) (p : Pos) : Step s (setPosOp i p s)
  | move (s : ProcState) (i : Nat) (ev : MoveEvent) (offset : Int) (measured : Pos) :
      Step s (moveOp i ev offset measured s)
  | dragDown (s : ProcState) (i : Nat) : Step s (dragDownOp i s)
  | dragMove (s : ProcState) (i : Nat) (a b : Int × Int) : Step s (dragMoveOp i a b s)
  | dragUp (s : ProcState) (i : Nat) (measured : Pos) : Step s (dragUpOp i measured s)
  | resizeDown (s : ProcState) (i : Nat) : Step s (resizeDownOp i s)
  | resizeMv (s : ProcState) (i : Nat) (m : MinSize) (start : Pos) (dirs : List Dir)
      (np : Int × Int) (ns : Pos) : Step s (resizeMoveOp i m start dirs np ns s)
  | close (s : ProcState) (i : Nat) : Step s (closeOp i s)

/-- The process states reachable from start by the class operations. -/
inductive Reachable : ProcState → Prop
  | init : Reachable initState
  | step {s s' : ProcState} : Reachable s → Step s s' → Reachable s'

/-- The process invariant: the counter never goes below its baseline, every
window's assigned z-index is bounded by the counter, every logged
assignment is bounded by the counter, the assignment log is strictly
increasing, and no window object ever has an `active` property. -/
def ProcInv (s : ProcState) : Prop :=
  10 ≤ s.zCounter ∧
  (∀ w ∈ s.wins, w.z ≤ s.zCounter) ∧
  (∀ v ∈ s.log, v ≤ s.zCounter) ∧
  s.log.Pairwise (· < ·) ∧
  (∀ w ∈ s.wins, w.active = none)

theorem applySet_frame (opt val : String) (w : Win) :
    (w.applySet opt val).z = w.z ∧ (w.applySet opt val).active = w.active ∧
    (w.applySet opt val).hidden = w.hidden := by
  by_cases h1 : opt = "title"
  · by_cases h2 : val = "" <;> simp [Win.applySet, titleCall, h1, h2, bne_iff_ne]
  · by_cases h2 : opt = "theme"
    · by_cases h3 : val = "" <;> simp [Win.applySet, themeCall, h1, h2, h3, bne_iff_ne]
    · simp [Win.applySet, h1, h2]

theorem foldl_applySet_frame (kvs : List (String × String)) (w : Win) :
    (kvs.foldl (fun w kv => w.applySet kv.1 kv.2) w).z = w.z ∧
    (kvs.foldl (fun w kv => w.applySet kv.1 kv.2) w).active = w.active ∧
    (kvs.foldl (fun w kv => w.applySet kv.1 kv.2) w).hidden = w.hidden := by
  induction kvs generalizing w with
  | nil => exact ⟨rfl, rfl, rfl⟩
  | cons kv rest ih =>
    have h1 := applySet_frame kv.1 kv.2 w
    have h2 := ih (w.applySet kv.1 kv.2)
    exact ⟨h2.1.trans h1.1, h2.2.1.trans h1.2.1, h2.2.2.trans h1.2.2⟩

theorem setPos_frame (p : Pos) (w : Win) :
    (Win.setPos p w).z = w.z ∧ (Win.setPos p w).active = w.active ∧
    (Win.setPos p w).hidden = w.hidden :=
  foldl_applySet_frame (setPosKeys p) w

theorem dragRelease_frame (measured : Pos) (w : Win) :
    (Win.dragRelease measured w).z = w.z ∧ (Win.dragRelease measured w).active = w.active ∧
    (Win.dragRelease measured w).hidden = w.hidden :=
  setPos_frame measured w

theorem procInv_updateWin {s : ProcState} (hs : ProcInv s) (i : Nat) {f : Win → Win}
    (hf : ∀ w, (f w).z = w.z ∧ (f w).active = w.active) :
    ProcInv (updateWin i f s) := by
  obtain ⟨h10, hz, hlb, hls, ha⟩ := hs
  cases hw : s.wins[i]? with
  | none => simp only [updateWin, hw]; exact ⟨h10, hz, hlb, hls, ha⟩
  | some w =>
    simp only [updateWin, hw]
    refine ⟨h10, ?_, hlb, hls, ?_⟩
    · intro w' hw'
      rcases List.mem_or_eq_of_mem_set hw' with h | h
      · exact hz w' h
      · subst h; rw [(hf w).1]; exact hz w (List.getElem?_mem hw)
    · intro w' hw'
      rcases List.mem_or_eq_of_mem_set hw' with h | h
      · exact ha w' h
      · subst h; rw [(hf w).2]; exact ha w (List.getElem?_mem hw)

theorem procInv_assignFront {s : ProcState} (hs : ProcInv s) (i : Nat) :
    ProcInv (assignFront i s) := by
  obtain ⟨h10, hz, hlb, hls, ha⟩ := hs
  cases hw : s.wins[i]? with
  | none => simp only [assignFront, hw]; exact ⟨h10, hz, hlb, hls, ha⟩
  | some w =>
    simp only [assignFront, hw]
    refine ⟨?_, ?_, ?_, ?_, ?_⟩
    · show 10 ≤ s.zCounter + 1
      omega
    · intro w' hw'
      show w'.z ≤ s.zCounter + 1
      rcases List.mem_or_eq_of_mem_set hw' with h | h
      · have := hz w' h; omega
      · subst h; simp
    · intro v hv
      show v ≤ s.zCounter + 1
      rcases List.mem_append.mp hv with h | h
      · have := hlb v h; omega
      · have : v = s.zCounter + 1 := by simpa using h
        omega
    · show (s.log ++ [s.zCounter + 1]).Pairwise (· < ·)
      rw [List.pairwise_append]
      refine ⟨hls, List.pairwise_singleton _ _, ?_⟩
      intro a ha' b hb
      have : b = s.zCounter + 1 := by simpa using hb
      subst this
      have := hlb a ha'
      omega
    · intro w' hw'
      rcases List.mem_or_eq_of_mem_set hw' with h | h
      · exact ha w' h
      · subst h
        show w.active = none
        exact ha w (List.getElem?_mem hw)

theorem procInv_bringToFront {s : ProcState} (hs : ProcInv s) (i : Nat) (force : Bool) :
    ProcInv (bringToFrontOp i force s) := by
  cases hw : s.wins[i]? with
  | none => simpa only [bringToFrontOp, hw] using hs
  | some w =>
    simp only [bringToFrontOp, hw]
    split
    · exact procInv_assignFront ⟨hs.1, hs.2.1, hs.2.2.1, hs.2.2.2.1, hs.2.2.2.2⟩ i
    · exact hs

theorem procInv_create {s : ProcState} (hs : ProcInv s) (t : String) (cs : List String) :
    ProcInv (createWinOp t cs s) := by
  apply procInv_bringToFront _ _ true
  obtain ⟨h10, hz, hlb, hls, ha⟩ := hs
  refine ⟨h10, ?_, hlb, hls, ?_⟩
  · intro w hw
    rcases List.mem_append.mp hw with h | h
    · exact hz w h
    · have hfw : w = freshWin t cs := by simpa using h
      subst hfw
      show (0 : Int) ≤ s.zCounter
      omega
  · intro w hw
    rcases List.mem_append.mp hw with h | h
    · exact ha w h
    · have hfw : w = freshWin t cs := by simpa using h
      subst hfw
      rfl

theorem procInv_setHidden {s : ProcState} (hs : ProcInv s) (i : Nat) (hide : Bool) :
    ProcInv (setHiddenOp i hide s) := by
  have hbase : ProcInv (if hide = false then bringToFrontOp i false s else s) := by
    by_cases h : hide = false
    · rw [if_pos h]; exact procInv_bringToFront hs i false
    · rw [if_neg h]; exact hs
  show ProcInv (updateWin i (fun w => { w with hidden := hide })
    (if hide = false then bringToFrontOp i false s else s))
  exact procInv_updateWin hbase i (fun w => ⟨rfl, rfl⟩)

theorem procInv_set {s : ProcState} (hs : ProcInv s) (i : Nat) (opt val : String) :
    ProcInv (setOp i opt val s) :=
  procInv_updateWin hs i
    (fun w => ⟨(applySet_frame opt val w).1, (applySet_frame opt val w).2.1⟩)

theorem procInv_setList {s : ProcState} (hs : ProcInv s) (i : Nat)
    (opts : List (String × String)) : ProcInv (setListOp i opts s) := by
  induction opts generalizing s with
  | nil => exact hs
  | cons kv rest ih => exact ih (procInv_set hs i kv.1 kv.2)

theorem procInv_setPos {s : ProcState} (hs : ProcInv s) (i : Nat) (p : Pos) :
    ProcInv (setPosOp i p s) :=
  procInv_updateWin hs i (fun w => ⟨(setPos_frame p w).1, (setPos_frame p w).2.1⟩)

theorem procInv_move {s : ProcState} (hs : ProcInv s) (i : Nat) (ev : MoveEvent)
    (offset : Int) (measured : Pos) : ProcInv (moveOp i ev offset measured s) := by
  cases hw : s.wins[i]? with
  | none => simpa only [moveOp, hw] using hs
  | some w =>
    simp only [moveOp, hw]
    split
    · exact procInv_updateWin hs i
        (fun w => ⟨(setPos_frame (movedPos ev offset measured) w).1,
                   (setPos_frame (movedPos ev offset measured) w).2.1⟩)
    · exact hs

theorem procInv_close {s : ProcState} (hs : ProcInv s) (i : Nat) : ProcInv (closeOp i s) := by
  obtain ⟨h10, hz, hlb, hls, ha⟩ := hs
  exact ⟨h10, fun w hw => hz w (List.mem_of_mem_eraseIdx hw), hlb, hls,
    fun w hw => ha w (List.mem_of_mem_eraseIdx hw)⟩

theorem procInv_step {s s' : ProcState} (hs : ProcInv s) (hstep : Step s s') : ProcInv s' := by
  cases hstep with
  | create t cs => exact procInv_create hs t cs
  | front i force => exact procInv_bringToFront hs i force
  | setHidden i hide => exact procInv_setHidden hs i hide
  | set i opt val => exact procInv_set hs i opt val
  | setList i opts => exact procInv_setList hs i opts
  | setPos i p => exact procInv_setPos hs i p
  | move i ev offset measured => exact procInv_move hs i ev offset measured
  | dragDown i =>
    exact procInv_updateWin (procInv_bringToFront hs i false) i (fun w => ⟨rfl, rfl⟩)
  | dragMove i a b => exact procInv_updateWin hs i (fun w => ⟨rfl, rfl⟩)
  | dragUp i measured =>
    exact procInv_updateWin hs i
      (fun w => ⟨(dragRelease_frame measured w).1, (dragRelease_frame measured w).2.1⟩)
  | resizeDown i => exact procInv_bringToFront hs i false
  | resizeMv i m start dirs np ns =>
    exact procInv_updateWin hs i
      (fun w => ⟨(setPos_frame (resizeMove m start dirs np ns) w).1,
                 (setPos_frame (resizeMove m start dirs np ns) w).2.1⟩)
  | close i => exact procInv_close hs i

theorem reachable_inv {s : ProcState} (hs : Reachable s) : ProcInv s := by
  induction hs with
  | init => refine ⟨?_, ?_, ?_, ?_, ?_⟩ <;> simp [initState]
  | step hr hstep ih => exact procInv_step ih hstep

theorem getElem_some_lt {l : List Win} {i : Nat} {w : Win} (hw : l[i]? = some w) :
    i < l.length := by
  by_contra hlen
  rw [List.getElem?_eq_none (Nat.le_of_not_lt hlen)] at hw
  exact Option.noConfusion hw

theorem updateWin_getElem (i : Nat) (f : Win → Win) (s : ProcState) (w : Win)
    (hw : s.wins[i]? = some w) :
    (updateWin i f s).wins[i]? = some (f w) ∧ (updateWin i f s).zCounter = s.zCounter ∧
    ∀ u ∈ (updateWin i f s).wins, u ∈ s.wins ∨ u = f w := by
  have h1 : updateWin i f s = { s with wins := s.wins.set i (f w) } := by
    simp only [updateWin, hw]
  rw [h1]
  refine ⟨List.getElem?_set_eq_of_lt _ (getElem_some_lt hw), rfl, ?_⟩
  intro u hu
  exact List.mem_or_eq_of_mem_set hu

theorem bringToFront_target (i : Nat) (force : Bool) (s : ProcState) (w : Win)
    (hw : s.wins[i]? = some w) (hmax : w.z ≤ s.zCounter) :
    ∃ w2, (bringToFrontOp i force s).wins[i]? = some w2 ∧
      w2.z = (bringToFrontOp i force s).zCounter ∧
      w2.hidden = w.hidden ∧ s.zCounter ≤ w2.z := by
  by_cases hcond : force = true ∨ w.z < s.zCounter
  · have hb : bringToFrontOp i force s = assignFront i s := by
      simp only [bringToFrontOp, hw, if_pos hcond]
    have ha1 : assignFront i s =
        { zCounter := s.zCounter + 1, wins := s.wins.set i { w with z := s.zCounter + 1 },
          log := s.log ++ [s.zCounter + 1] } := by
      simp only [assignFront, hw]
    rw [hb, ha1]
    refine ⟨{ w with z := s.zCounter + 1 }, ?_, rfl, rfl, ?_⟩
    · show (s.wins.set i { w with z := s.zCounter + 1 })[i]? = _
      exact List.getElem?_set_eq_of_lt _ (getElem_some_lt hw)
    · show s.zCounter ≤ s.zCounter + 1
      omega
  · have hb : bringToFrontOp i force s = s := by
      simp only [bringToFrontOp, hw, if_neg hcond]
    rw [hb]
    push_neg at hcond
    exact ⟨w, hw, le_antisymm hmax hcond.2, rfl, hcond.2⟩

/-- C3: after `bringToFront(force=true)` on any window of a reachable
process state, that window's stack order strictly exceeds every z-index
value previously assigned in the process, and the sequence of assigned
values (before and after the call) is strictly increasing across the
process lifetime. -/
theorem bringToFront_force_tops_history (s : ProcState) (hs : Reachable s) (i : Nat)
    (w' : Win) (hw' : (bringToFrontOp i true s).wins[i]? = some w') :
    (∀ v ∈ s.log, v < w'.z) ∧
    (bringToFrontOp i true s).log.Pairwise (· < ·) ∧
    s.log.Pairwise (· < ·) := by
  obtain ⟨h10, hz, hlb, hls, ha⟩ := reachable_inv hs
  cases hw : s.wins[i]? with
  | none =>
    have hb : bringToFrontOp i true s = s := by simp only [bringToFrontOp, hw]
    rw [hb, hw] at hw'
    exact Option.noConfusion hw'
  | some w =>
    have hb : bringToFrontOp i true s = assignFront i s := by
      simp [bringToFrontOp, hw]
    rw [hb] at hw' ⊢
    simp only [assignFront, hw] at hw' ⊢
    rw [List.getElem?_set_eq_of_lt _ (getElem_some_lt hw)] at hw'
    have hww : w' = { w with z := s.zCounter + 1 } := by
      injection hw' with h
      exact h.symm
    subst hww
    refine ⟨?_, ?_, hls⟩
    · intro v hv
      show v < s.zCounter + 1
      have := hlb v hv
      omega
    · show (s.log ++ [s.zCounter + 1]).Pairwise (· < ·)
      rw [List.pairwise_append]
      refine ⟨hls, List.pairwise_singleton _ _, ?_⟩
      intro a ha' b hb'
      have hb1 : b = s.zCounter + 1 := by simpa using hb'
      subst hb1
      have := hlb a ha'
      omega

/-- The process state after constructing one window from the start state. -/
def procW : ProcState := createWinOp "t" [] initState

/-- C3 witness: in the one-window process (assigned z-index 11, counter 11),
a forced `bringToFront` puts the window at z-index 12, above the only
previously assigned value 11, and the assignment log stays strictly
increasing. -/
theorem bringToFront_force_tops_history_witness :
    (∀ v ∈ procW.log,
      v < (({ z := 12, hidden := true, active := none, title := "t", classes := [],
              styles := [], headerStyles := [] } : Win)).z) ∧
    (bringToFrontOp 0 true procW).log.Pairwise (· < ·) ∧
    procW.log.Pairwise (· < ·) :=
  bringToFront_force_tops_history procW
    (Reachable.step Reachable.init (Step.create initState "t" [])) 0
    { z := 12, hidden := true, active := none, title := "t", classes := [],
      styles := [], headerStyles := [] }
    (by decide)

/-- C6: after `show()` on any window of a reachable process state, that
window is not hidden and its stack order equals the process-wide maximum:
it equals the counter `N2Window.zIndex`, which bounds every live window's
stack order. -/
theorem show_unhides_and_tops (s : ProcState) (hs : Reachable s) (i : Nat) (w' : Win)
    (hw' : (showOp i s).wins[i]? = some w') :
    w'.hidden = false ∧ w'.z = (showOp i s).zCounter ∧
    ∀ w ∈ (showOp i s).wins, w.z ≤ w'.z := by
  obtain ⟨h10, hz, hlb, hls, ha⟩ := reachable_inv hs
  have hshow : showOp i s =
      updateWin i (fun u => { u with hidden := false }) (bringToFrontOp i false s) := rfl
  cases hw : s.wins[i]? with
  | none =>
    have hb : bringToFrontOp i false s = s := by simp only [bringToFrontOp, hw]
    have hu : showOp i s = s := by
      rw [hshow, hb]
      simp only [updateWin, hw]
    rw [hu, hw] at hw'
    exact Option.noConfusion hw'
  | some w =>
    obtain ⟨w2, hw2, hz2, hh2, hle2⟩ :=
      bringToFront_target i false s w hw (hz w (List.getElem?_mem hw))
    obtain ⟨_, hz2all, _, _, _⟩ := procInv_bringToFront ⟨h10, hz, hlb, hls, ha⟩ i false
    have hu := updateWin_getElem i (fun u => { u with hidden := false })
      (bringToFrontOp i false s) w2 hw2
    rw [hshow] at hw' ⊢
    rw [hu.1] at hw'
    have hww : w' = { w2 with hidden := false } := by
      injection hw' with h
      exact h.symm
    subst hww
    refine ⟨rfl, ?_, ?_⟩
    · show w2.z = (updateWin i (fun u => { u with hidden := false })
        (bringToFrontOp i false s)).zCounter
      rw [hu.2.1]
      exact hz2
    · intro u hu'
      rcases hu.2.2 u hu' with h | h
      · show u.z ≤ w2.z
        rw [hz2]
        exact hz2all u h
      · subst h
        exact le_refl _

/-- The window record produced by `show()` in the one-window process. -/
def winC6 : Win :=
  { z := 11, hidden := false, active := none, title := "t", classes := [],
    styles := [], headerStyles := [] }

/-- C6 witness: showing the just-created window of the one-window process
leaves it unhidden at stack order 11, the process maximum. -/
theorem show_unhides_and_tops_witness :
    winC6.hidden = false ∧ winC6.z = (showOp 0 procW).zCounter ∧
    ∀ w ∈ (showOp 0 procW).wins, w.z ≤ winC6.z :=
  show_unhides_and_tops procW
    (Reachable.step Reachable.init (Step.create initState "t" [])) 0 winC6 (by decide)

/-- C10: `move(event, offset)` never changes process state on any reachable
state: its guard `if (!this.active) return;` reads the `active` property,
which no code in the class hierarchy ever assigns, so the guard always
takes the early return and the relocation code after it never runs. -/
theorem move_is_noop (s : ProcState) (hs : Reachable s) (i : Nat) (ev : MoveEvent)
    (offset : Int) (measured : Pos) : moveOp i ev offset measured s = s := by
  obtain ⟨h10, hz, hlb, hls, ha⟩ := reachable_inv hs
  cases hw : s.wins[i]? with
  | none => simp only [moveOp, hw]
  | some w =>
    have hact : w.active = none := ha w (List.getElem?_mem hw)
    simp [moveOp, hw, hact, truthy]

/-- A concrete pointer event for the C10 witness. -/
def moveEvW : MoveEvent :=
  { clientX := 0, clientY := 0, pageX := 0, pageY := 0, innerWidth := 800, innerHeight := 600 }

/-- A concrete measured geometry for the C10 witness. -/
def posW : Pos :=
  { top := 0, right := 0, bottom := 0, left := 0, width := 0, height := 0,
    parentWidth := 0, parentHeight := 0 }

/-- C10 witness: `move` on the start state is the identity. -/
theorem move_is_noop_witness : moveOp 0 moveEvW 15 posW initState = initState :=
  move_is_noop initState Reachable.init 0 moveEvW 15 posW
